import Mathlib

/-!
Verification of the `visualization` layer of the bb8 repository
(`src/visualization/vulkan_application.cpp`), shallowly embedded in Lean.

Pure selection/negotiation routines (`findQueueFamilies`,
`chooseSwapSurfaceFormat`, `chooseSwapExtent`, `gatherLayers`,
`gatherExtensions`, `buildLogicalDevice`, `buildSwapChain`) are embedded as
Lean functions over explicit records mirroring the Vulkan structures they
consult.  Fallible routines return `Except`/`Option`.  The per-frame
draw loop (`drawFrame`) is embedded as a CPU event trace together with a
small-step transition system modelling the CPU/GPU fence protocol.
-/

namespace visualization

/-- `uint32_t` maximum, the sentinel used by `chooseSwapExtent`
(`std::numeric_limits<uint32_t>::max()`). -/
def UINT32_MAX : Nat := 2 ^ 32 - 1

/-- `vk::Extent2D`: a width/height pair. -/
structure Extent2D where
  width : Nat
  height : Nat
deriving DecidableEq, Repr

/-- The fields of `vk::SurfaceCapabilitiesKHR` consulted by the code. -/
structure SurfaceCapabilitiesKHR where
  minImageCount : Nat
  maxImageCount : Nat
  currentExtent : Extent2D
  minImageExtent : Extent2D
  maxImageExtent : Extent2D
  currentTransform : Nat
deriving DecidableEq, Repr

/-- `vk::Format`, restricted to the constant the code names plus an opaque
code for every other value. -/
inductive Format where
  | eB8G8R8A8Srgb
  | otherFormat (code : Nat)
deriving DecidableEq, Repr

/-- `vk::ColorSpaceKHR`, restricted to the constant the code names plus an
opaque code for every other value. -/
inductive ColorSpaceKHR where
  | eSrgbNonlinear
  | otherColorSpace (code : Nat)
deriving DecidableEq, Repr

/-- `vk::SurfaceFormatKHR`: a (format, color space) pair. -/
structure SurfaceFormatKHR where
  format : Format
  colorSpace : ColorSpaceKHR
deriving DecidableEq, Repr

/-- `vk::PresentModeKHR`. -/
inductive PresentModeKHR where
  | eFifo
  | eImmediate
  | eMailbox
  | eFifoRelaxed
  | otherPresentMode (code : Nat)
deriving DecidableEq, Repr

/-- `vk::SharingMode`. -/
inductive SharingMode where
  | eExclusive
  | eConcurrent
deriving DecidableEq, Repr

/-- `vk::CompositeAlphaFlagBitsKHR`, restricted to the constant the code
names plus an opaque code for every other value. -/
inductive CompositeAlphaFlagBitsKHR where
  | eOpaque
  | otherCompositeAlpha (code : Nat)
deriving DecidableEq, Repr

/-- `VulkanApplication::SwapChainSupportDetails` (vulkan_application.cpp,
`querySwapChainSupport`): surface capabilities plus the enumerated surface
formats and present modes. -/
structure SwapChainSupportDetails where
  capabilities : SurfaceCapabilitiesKHR
  formats : List SurfaceFormatKHR
  present_modes : List PresentModeKHR
deriving DecidableEq, Repr

/-- The loop test of `chooseSwapSurfaceFormat`:
`surface_format.format == vk::Format::eB8G8R8A8Srgb &&
 surface_format.colorSpace == vk::ColorSpaceKHR::eSrgbNonlinear`. -/
def isPreferredSurfaceFormat (sf : SurfaceFormatKHR) : Bool :=
  sf.format == Format.eB8G8R8A8Srgb && sf.colorSpace == ColorSpaceKHR.eSrgbNonlinear

/-- `VulkanApplication::chooseSwapSurfaceFormat` (vulkan_application.cpp
lines 118-127): return the first enumerated format matching the preferred
(B8G8R8A8-SRGB, SRGB-nonlinear) pair, else fall back to element 0.  The
fallback subscript `available_formats[0]` is modelled as `List.get?` so an
out-of-bounds access on an empty list surfaces as `none`. -/
def chooseSwapSurfaceFormat (available_formats : List SurfaceFormatKHR) :
    Option SurfaceFormatKHR :=
  match available_formats.find? isPreferredSurfaceFormat with
  | some surface_format => some surface_format
  | none => available_formats.get? 0

/-- `std::clamp(v, lo, hi)`: `v < lo ? lo : hi < v ? hi : v`. -/
def std_clamp (v lo hi : Nat) : Nat :=
  if v < lo then lo else if hi < v then hi else v

/-- `VulkanApplication::chooseSwapExtent` (vulkan_application.cpp lines
129-140): use the surface's `currentExtent` unless its width is the
`uint32_t`-max sentinel, in which case clamp the window's reported size to
the capability bounds.  `window->size()` is passed in as `window_size`. -/
def chooseSwapExtent (capabilities : SurfaceCapabilitiesKHR)
    (window_size : Extent2D) : Extent2D :=
  if capabilities.currentExtent.width ≠ UINT32_MAX then
    capabilities.currentExtent
  else
    { width := std_clamp window_size.width
        capabilities.minImageExtent.width capabilities.maxImageExtent.width,
      height := std_clamp window_size.height
        capabilities.minImageExtent.height capabilities.maxImageExtent.height }

/-- The fields of `vk::SwapchainCreateInfoKHR` that `buildSwapChain` fills
in (vulkan_application.cpp lines 196-211), minus the raw handles
(`surface`, `oldSwapchain`) and the constant image-usage flag. -/
structure SwapchainCreateInfoKHR where
  minImageCount : Nat
  imageFormat : Format
  imageColorSpace : ColorSpaceKHR
  imageExtent : Extent2D
  imageArrayLayers : Nat
  sharingMode : SharingMode
  preTransform : Nat
  compositeAlpha : CompositeAlphaFlagBitsKHR
  presentMode : PresentModeKHR
  clipped : Bool
deriving DecidableEq, Repr

/-- `VulkanApplication::buildSwapChain` (vulkan_application.cpp lines
185-213), up to the driver call: computes the requested image count
(`minImageCount + 1`, capped by `maxImageCount` when that is non-zero),
picks the surface format and extent, and assembles the
`vk::SwapchainCreateInfoKHR` passed to swapchain creation.  Returns `none`
exactly when `chooseSwapSurfaceFormat` would access out of bounds. -/
def buildSwapChain (support : SwapChainSupportDetails)
    (window_size : Extent2D) : Option SwapchainCreateInfoKHR :=
  let image_count := support.capabilities.minImageCount + 1
  let image_count :=
    if support.capabilities.maxImageCount > 0 then
      min image_count support.capabilities.maxImageCount
    else
      image_count
  match chooseSwapSurfaceFormat support.formats with
  | none => none
  | some surface_format =>
    some
      { minImageCount := image_count,
        imageFormat := surface_format.format,
        imageColorSpace := surface_format.colorSpace,
        imageExtent := chooseSwapExtent support.capabilities window_size,
        imageArrayLayers := 1,
        sharingMode := SharingMode.eExclusive,
        preTransform := support.capabilities.currentTransform,
        compositeAlpha := CompositeAlphaFlagBitsKHR.eOpaque,
        presentMode := PresentModeKHR.eFifo,
        clipped := true }

/-- `VK_QUEUE_GRAPHICS_BIT` (0x1), the flag tested by `findQueueFamilies`. -/
def QUEUE_GRAPHICS_BIT : Nat := 1

/-- The field of `vk::QueueFamilyProperties` consulted by the code: the
queue-flags bitmask. -/
structure QueueFamilyProperties where
  queueFlags : Nat
deriving DecidableEq, Repr

/-- `VulkanApplication::QueueFamilyIndices`: optional graphics and present
queue-family indices. -/
structure QueueFamilyIndices where
  graphics_family : Option Nat
  present_family : Option Nat
deriving DecidableEq, Repr

/-- The test `queue_families[index].queueFlags & vk::QueueFlagBits::eGraphics`
(vulkan_application.cpp line 95): the bitmask intersection is non-zero. -/
def graphicsFlagSet (qf : QueueFamilyProperties) : Bool :=
  qf.queueFlags &&& QUEUE_GRAPHICS_BIT != 0

/-- The body of the loop in `VulkanApplication::findQueueFamilies`
(vulkan_application.cpp lines 94-103): record the index when the family's
flags include graphics, then record it again when
`getSurfaceSupportKHR(index, surface)` reports present support. -/
def findQueueFamiliesStep (present_support : Nat → Bool)
    (indices : QueueFamilyIndices) (entry : Nat × QueueFamilyProperties) :
    QueueFamilyIndices :=
  let indices :=
    if graphicsFlagSet entry.2 then
      { indices with graphics_family := some entry.1 }
    else indices
  if present_support entry.1 then
    { indices with present_family := some entry.1 }
  else indices

/-- `VulkanApplication::findQueueFamilies` (vulkan_application.cpp lines
89-106): scan the enumerated queue families once, index 0 upward.
`present_support i` stands for `device.getSurfaceSupportKHR(i, *surface)`
for the given device/surface pair. -/
def findQueueFamilies (queue_families : List QueueFamilyProperties)
    (present_support : Nat → Bool) : QueueFamilyIndices :=
  queue_families.enum.foldl (findQueueFamiliesStep present_support)
    { graphics_family := none, present_family := none }

/-- The field of `vk::LayerProperties` consulted by `gatherLayers`. -/
structure LayerProperties where
  layerName : String
deriving DecidableEq, Repr

/-- The field of `vk::ExtensionProperties` consulted by
`gatherExtensions`. -/
structure ExtensionProperties where
  extensionName : String
deriving DecidableEq, Repr

/-- `VulkanApplication::gatherLayers` (vulkan_application.cpp lines 49-67):
for each required layer name, linearly search the enumerated available
layers; throw "missing required layer <name>" at the first unmatched name,
else collect `layer.data()` (the required name itself) in order. -/
def gatherLayers (available_layers : List LayerProperties) :
    List String → Except String (List String)
  | [] => Except.ok []
  | layer :: rest =>
    match available_layers.find? (fun l => layer == l.layerName) with
    | none => Except.error ("missing required layer " ++ layer)
    | some _ =>
      match gatherLayers available_layers rest with
      | Except.error e => Except.error e
      | Except.ok layers => Except.ok (layer :: layers)

/-- `VulkanApplication::gatherExtensions` (vulkan_application.cpp lines
69-87): identical algorithm to `gatherLayers` over extension names, with
error message "missing required extension <name>". -/
def gatherExtensions (available_extensions : List ExtensionProperties) :
    List String → Except String (List String)
  | [] => Except.ok []
  | extension :: rest =>
    match available_extensions.find? (fun e => extension == e.extensionName) with
    | none => Except.error ("missing required extension " ++ extension)
    | some _ =>
      match gatherExtensions available_extensions rest with
      | Except.error e => Except.error e
      | Except.ok extensions => Except.ok (extension :: extensions)

/-- `VulkanApplication::validation_layers` (vulkan_application.cpp line
14). -/
def validation_layers : List String := ["VK_LAYER_KHRONOS_validation"]

/-- `VulkanApplication::device_extensions` (vulkan_application.cpp line
15): `VK_KHR_SWAPCHAIN_EXTENSION_NAME`. -/
def device_extensions : List String := ["VK_KHR_swapchain"]

/-- Error taxonomy of `buildLogicalDevice`: the explicit
"cannot find queues for both graphics and present" configuration throw
(line 171) versus the "missing required layer/extension" throws raised
inside `gatherLayers`/`gatherExtensions`. -/
inductive DeviceBuildError where
  | configuration (msg : String)
  | missingCapability (msg : String)
deriving DecidableEq, Repr

/-- `vk::DeviceQueueCreateInfo`: queue family index and queue count
(vulkan_application.cpp line 180 requests one queue). -/
structure DeviceQueueCreateInfo where
  queueFamilyIndex : Nat
  queueCount : Nat
deriving DecidableEq, Repr

/-- The fields of `vk::DeviceCreateInfo` that `buildLogicalDevice` fills in
(vulkan_application.cpp line 181). -/
structure DeviceCreateInfo where
  queueCreateInfos : List DeviceQueueCreateInfo
  enabledLayers : List String
  enabledExtensions : List String
deriving DecidableEq, Repr

/-- `VulkanApplication::buildLogicalDevice` (vulkan_application.cpp lines
169-183): reject indices missing either family with a configuration error,
then gather device layers/extensions (capability errors), then build a
`vk::DeviceCreateInfo` requesting a single queue on the graphics family. -/
def buildLogicalDevice (queue_family_indices : QueueFamilyIndices)
    (available_device_layers : List LayerProperties)
    (available_device_extensions : List ExtensionProperties)
    (enable_validation_layers : Bool) :
    Except DeviceBuildError DeviceCreateInfo :=
  match queue_family_indices.graphics_family,
        queue_family_indices.present_family with
  | some graphics_family, some _ =>
    let required_layers := if enable_validation_layers then validation_layers else []
    match gatherLayers available_device_layers required_layers with
    | Except.error e => Except.error (DeviceBuildError.missingCapability e)
    | Except.ok enabled_layers =>
      match gatherExtensions available_device_extensions device_extensions with
      | Except.error e => Except.error (DeviceBuildError.missingCapability e)
      | Except.ok enabled_extensions =>
        Except.ok
          { queueCreateInfos := [{ queueFamilyIndex := graphics_family, queueCount := 1 }],
            enabledLayers := enabled_layers,
            enabledExtensions := enabled_extensions }
  | _, _ =>
    Except.error
      (DeviceBuildError.configuration "cannot find queues for both graphics and present")

/-- The queue retrievals performed by the `VulkanApplication` constructor
(vulkan_application.cpp lines 24-25): `device.getQueue(graphics_family, 0)`
and `device.getQueue(present_family, 0)`.  Each retrieval is recorded as
the (family index, queue index) pair passed to `getQueue`; `none` when the
corresponding `std::optional` is unset (`value()` would throw). -/
def constructorQueueRetrievals (queue_family_indices : QueueFamilyIndices) :
    Option ((Nat × Nat) × (Nat × Nat)) :=
  match queue_family_indices.graphics_family,
        queue_family_indices.present_family with
  | some graphics_family, some present_family =>
    some ((graphics_family, 0), (present_family, 0))
  | _, _ => none

/-- The CPU-side operations of `VulkanApplication::drawFrame`
(vulkan_application.cpp lines 347-367), in program order. -/
inductive FrameEvent where
  | waitFence
  | resetFence
  | acquireImage
  | resetCommandBuffer
  | recordCommands
  | submit
  | present
deriving DecidableEq, Repr

/-- The event trace of one `drawFrame` invocation, read off lines 347-367:
wait on the in-flight fence, reset it, acquire the next image, reset and
re-record the command buffer, submit (with the in-flight fence attached),
present. -/
def drawFrameTrace : List FrameEvent :=
  [FrameEvent.waitFence, FrameEvent.resetFence, FrameEvent.acquireImage,
   FrameEvent.resetCommandBuffer, FrameEvent.recordCommands,
   FrameEvent.submit, FrameEvent.present]

/-- The CPU program of `N` sequential `drawFrame` invocations (the body of
`run()`'s loop executed `N` times). -/
def drawFrameProgram : Nat → List FrameEvent
  | 0 => []
  | n + 1 => drawFrameTrace ++ drawFrameProgram n

/-- State of the CPU/GPU synchronization protocol: whether the in-flight
fence is signaled, how many submitted command buffers the GPU has not yet
retired, and the CPU events still to execute. -/
structure SyncState where
  fenceSignaled : Bool
  outstanding : Nat
  program : List FrameEvent
deriving DecidableEq, Repr

/-- Small-step semantics of the protocol.  The GPU may retire an
outstanding submission at any time, signaling the in-flight fence
(`vkQueueSubmit` with `frame_in_flight_fence`, line 362).  The CPU executes
its next event; `waitFence` can only step once the fence is signaled
(`waitForFences` with unbounded timeout, line 348), `resetFence`
unsignals it (line 350), and `submit` hands one more command buffer to the
GPU.  The remaining events do not touch the fence or the GPU queue. -/
inductive SysStep : SyncState → SyncState → Prop where
  | gpuRetire (s : SyncState) (h : 0 < s.outstanding) :
      SysStep s { s with outstanding := s.outstanding - 1, fenceSignaled := true }
  | cpuWaitFence (s : SyncState) (rest : List FrameEvent)
      (hp : s.program = FrameEvent.waitFence :: rest)
      (hf : s.fenceSignaled = true) :
      SysStep s { s with program := rest }
  | cpuResetFence (s : SyncState) (rest : List FrameEvent)
      (hp : s.program = FrameEvent.resetFence :: rest) :
      SysStep s { s with fenceSignaled := false, program := rest }
  | cpuSubmit (s : SyncState) (rest : List FrameEvent)
      (hp : s.program = FrameEvent.submit :: rest) :
      SysStep s { s with outstanding := s.outstanding + 1, program := rest }
  | cpuAcquire (s : SyncState) (rest : List FrameEvent)
      (hp : s.program = FrameEvent.acquireImage :: rest) :
      SysStep s { s with program := rest }
  | cpuResetCommandBuffer (s : SyncState) (rest : List FrameEvent)
      (hp : s.program = FrameEvent.resetCommandBuffer :: rest) :
      SysStep s { s with program := rest }
  | cpuRecord (s : SyncState) (rest : List FrameEvent)
      (hp : s.program = FrameEvent.recordCommands :: rest) :
      SysStep s { s with program := rest }
  | cpuPresent (s : SyncState) (rest : List FrameEvent)
      (hp : s.program = FrameEvent.present :: rest) :
      SysStep s { s with program := rest }

/-- The initial state for `N` sequential `drawFrame` invocations: the
in-flight fence is created signaled (`vk::FenceCreateFlagBits::eSignaled`,
vulkan_application.cpp line 34) and no GPU work has been submitted. -/
def initialSyncState (N : Nat) : SyncState :=
  { fenceSignaled := true, outstanding := 0, program := drawFrameProgram N }

/-- States reachable while running `N` sequential `drawFrame`
invocations. -/
inductive Reachable (N : Nat) : SyncState → Prop where
  | init : Reachable N (initialSyncState N)
  | step {s t : SyncState} : Reachable N s → SysStep s t → Reachable N t

/-- Spec-side helper for queue-family selection: the last index in an
enumerated list whose entry satisfies the predicate (later entries win). -/
def spec_lastMatchIndex (p : Nat → QueueFamilyProperties → Bool) :
    List (Nat × QueueFamilyProperties) → Option Nat
  | [] => none
  | entry :: rest =>
    match spec_lastMatchIndex p rest with
    | some j => some j
    | none => if p entry.1 entry.2 then some entry.1 else none

/-- Inductive invariant of the drawFrame fence protocol: the remaining CPU
program sits at one of the seven positions of the per-frame trace, and at
each position the fence/outstanding state is pinned down.  Work is
outstanding (exactly one submission) only between `submit` and the next
successful fence wait; during command-buffer reset and re-recording
nothing is outstanding and the fence has been reset. -/
def protocolInv (s : SyncState) : Prop :=
  (∃ k, s.program = drawFrameProgram k ∧
    ((s.outstanding = 1 ∧ s.fenceSignaled = false) ∨
     (s.outstanding = 0 ∧ s.fenceSignaled = true))) ∨
  (∃ k, s.program =
      [FrameEvent.resetFence, FrameEvent.acquireImage,
       FrameEvent.resetCommandBuffer, FrameEvent.recordCommands,
       FrameEvent.submit, FrameEvent.present] ++ drawFrameProgram k ∧
    s.outstanding = 0 ∧ s.fenceSignaled = true) ∨
  (∃ k, s.program =
      [FrameEvent.acquireImage, FrameEvent.resetCommandBuffer,
       FrameEvent.recordCommands, FrameEvent.submit, FrameEvent.present] ++
        drawFrameProgram k ∧
    s.outstanding = 0 ∧ s.fenceSignaled = false) ∨
  (∃ k, s.program =
      [FrameEvent.resetCommandBuffer, FrameEvent.recordCommands,
       FrameEvent.submit, FrameEvent.present] ++ drawFrameProgram k ∧
    s.outstanding = 0 ∧ s.fenceSignaled = false) ∨
  (∃ k, s.program =
      [FrameEvent.recordCommands, FrameEvent.submit, FrameEvent.present] ++
        drawFrameProgram k ∧
    s.outstanding = 0 ∧ s.fenceSignaled = false) ∨
  (∃ k, s.program =
      [FrameEvent.submit, FrameEvent.present] ++ drawFrameProgram k ∧
    s.outstanding = 0 ∧ s.fenceSignaled = false) ∨
  (∃ k, s.program = [FrameEvent.present] ++ drawFrameProgram k ∧
    ((s.outstanding = 1 ∧ s.fenceSignaled = false) ∨
     (s.outstanding = 0 ∧ s.fenceSignaled = true)))

/-- The preferred surface format named by the code:
(`vk::Format::eB8G8R8A8Srgb`, `vk::ColorSpaceKHR::eSrgbNonlinear`). -/
def preferredSurfaceFormat : SurfaceFormatKHR :=
  { format := Format.eB8G8R8A8Srgb, colorSpace := ColorSpaceKHR.eSrgbNonlinear }

lemma isPreferredSurfaceFormat_iff (sf : SurfaceFormatKHR) :
    isPreferredSurfaceFormat sf = true ↔ sf = preferredSurfaceFormat := by
  cases sf with
  | mk f c =>
    simp [isPreferredSurfaceFormat, preferredSurfaceFormat]

/-- C5: for every non-empty list of available surface formats,
`chooseSwapSurfaceFormat` returns the (B8G8R8A8 SRGB, SRGB-nonlinear) pair
when some entry equals it (any entry equal to the pair is that pair, so the
first such entry is returned), and otherwise returns the first entry of the
list. -/
theorem chooseSwapSurfaceFormat_preferred_or_first
    (formats : List SurfaceFormatKHR) (hne : formats ≠ []) :
    (preferredSurfaceFormat ∈ formats →
      chooseSwapSurfaceFormat formats = some preferredSurfaceFormat) ∧
    (preferredSurfaceFormat ∉ formats →
      chooseSwapSurfaceFormat formats = some (formats.head hne)) := by
  constructor
  · intro hmem
    have hsome : (formats.find? isPreferredSurfaceFormat).isSome := by
      rw [List.find?_isSome]
      exact ⟨preferredSurfaceFormat, hmem, (isPreferredSurfaceFormat_iff _).mpr rfl⟩
    obtain ⟨sf, hsf⟩ := Option.isSome_iff_exists.mp hsome
    have heq := (isPreferredSurfaceFormat_iff sf).mp (List.find?_some hsf)
    subst heq
    simp [chooseSwapSurfaceFormat, hsf]
  · intro hnmem
    have hnone : formats.find? isPreferredSurfaceFormat = none := by
      rw [List.find?_eq_none]
      intro x hx hpx
      exact hnmem ((isPreferredSurfaceFormat_iff x).mp hpx ▸ hx)
    cases formats with
    | nil => exact absurd rfl hne
    | cons a l => simp [chooseSwapSurfaceFormat, hnone]

theorem chooseSwapSurfaceFormat_preferred_or_first_witness :
    chooseSwapSurfaceFormat [preferredSurfaceFormat] = some preferredSurfaceFormat :=
  (chooseSwapSurfaceFormat_preferred_or_first [preferredSurfaceFormat]
    (by simp)).1 (by simp)

/-- C8: the fallback access `available_formats[0]` of
`chooseSwapSurfaceFormat` is out of bounds exactly on the empty list
(modelled as the `none` result); on any non-empty list the returned format
is an element of the list, so the access is in bounds. -/
theorem chooseSwapSurfaceFormat_bounds (formats : List SurfaceFormatKHR) :
    (chooseSwapSurfaceFormat formats = none ↔ formats = []) ∧
    (∀ sf, chooseSwapSurfaceFormat formats = some sf → sf ∈ formats) := by
  constructor
  · unfold chooseSwapSurfaceFormat
    cases hf : formats.find? isPreferredSurfaceFormat with
    | some sf =>
      simp only []
      constructor
      · intro h; exact absurd h (by simp)
      · intro h
        subst h
        simp at hf
    | none =>
      cases formats <;> simp
  · intro sf h
    unfold chooseSwapSurfaceFormat at h
    cases hf : formats.find? isPreferredSurfaceFormat with
    | some x =>
      rw [hf] at h
      cases h
      exact List.mem_of_find?_eq_some hf
    | none =>
      rw [hf] at h
      exact List.get?_mem h

theorem chooseSwapSurfaceFormat_bounds_witness :
    preferredSurfaceFormat ∈ [preferredSurfaceFormat] :=
  (chooseSwapSurfaceFormat_bounds [preferredSurfaceFormat]).2
    preferredSurfaceFormat rfl

lemma std_clamp_eq_max_min (v lo hi : Nat) (h : lo ≤ hi) :
    std_clamp v lo hi = max lo (min v hi) := by
  unfold std_clamp
  rcases Nat.lt_or_ge v lo with h1 | h1 <;> rcases Nat.lt_or_ge hi v with h2 | h2 <;>
    simp [h1, h2, Nat.not_lt.mpr] <;> omega

/-- C3: `chooseSwapExtent` returns the capabilities' current extent exactly
(for every window size) when the current extent's width is not the
`uint32_t`-max sentinel; when it is the sentinel, it returns the window's
reported size with width and height each clamped to the min/max image
extent bounds. -/
theorem chooseSwapExtent_current_or_clamped
    (capabilities : SurfaceCapabilitiesKHR) (window_size : Extent2D) :
    (capabilities.currentExtent.width ≠ UINT32_MAX →
      chooseSwapExtent capabilities window_size = capabilities.currentExtent) ∧
    (capabilities.currentExtent.width = UINT32_MAX →
      capabilities.minImageExtent.width ≤ capabilities.maxImageExtent.width →
      capabilities.minImageExtent.height ≤ capabilities.maxImageExtent.height →
      chooseSwapExtent capabilities window_size =
        { width := max capabilities.minImageExtent.width
            (min window_size.width capabilities.maxImageExtent.width),
          height := max capabilities.minImageExtent.height
            (min window_size.height capabilities.maxImageExtent.height) }) := by
  constructor
  · intro hs
    simp [chooseSwapExtent, hs]
  · intro hs hw hh
    simp [chooseSwapExtent, hs, std_clamp_eq_max_min _ _ _ hw,
      std_clamp_eq_max_min _ _ _ hh]

theorem chooseSwapExtent_current_or_clamped_witness :
    chooseSwapExtent
      { minImageCount := 2, maxImageCount := 3,
        currentExtent := { width := 640, height := 480 },
        minImageExtent := { width := 1, height := 1 },
        maxImageExtent := { width := 2048, height := 2048 },
        currentTransform := 0 }
      { width := 100, height := 100 } = { width := 640, height := 480 } :=
  (chooseSwapExtent_current_or_clamped
    { minImageCount := 2, maxImageCount := 3,
      currentExtent := { width := 640, height := 480 },
      minImageExtent := { width := 1, height := 1 },
      maxImageExtent := { width := 2048, height := 2048 },
      currentTransform := 0 }
    { width := 100, height := 100 }).1 (by decide)

/-- C4: the swapchain image count requested by `buildSwapChain` is
`min(minImageCount + 1, maxImageCount)` when `maxImageCount` is non-zero,
and `minImageCount + 1` when `maxImageCount` is zero (unbounded). -/
theorem buildSwapChain_image_count (support : SwapChainSupportDetails)
    (window_size : Extent2D) (info : SwapchainCreateInfoKHR)
    (h : buildSwapChain support window_size = some info) :
    info.minImageCount =
      if support.capabilities.maxImageCount ≠ 0 then
        min (support.capabilities.minImageCount + 1)
          support.capabilities.maxImageCount
      else
        support.capabilities.minImageCount + 1 := by
  unfold buildSwapChain at h
  cases hf : chooseSwapSurfaceFormat support.formats with
  | none => rw [hf] at h; cases h
  | some sf =>
    rw [hf] at h
    cases h
    simp only [Nat.pos_iff_ne_zero]

theorem buildSwapChain_image_count_witness :
    (({ minImageCount := 3, imageFormat := Format.eB8G8R8A8Srgb,
        imageColorSpace := ColorSpaceKHR.eSrgbNonlinear,
        imageExtent := { width := 640, height := 480 }, imageArrayLayers := 1,
        sharingMode := SharingMode.eExclusive, preTransform := 0,
        compositeAlpha := CompositeAlphaFlagBitsKHR.eOpaque,
        presentMode := PresentModeKHR.eFifo,
        clipped := true } : SwapchainCreateInfoKHR).minImageCount) =
      if (3 : Nat) ≠ 0 then min (2 + 1) 3 else 2 + 1 :=
  buildSwapChain_image_count
    { capabilities :=
        { minImageCount := 2, maxImageCount := 3,
          currentExtent := { width := 640, height := 480 },
          minImageExtent := { width := 1, height := 1 },
          maxImageExtent := { width := 2048, height := 2048 },
          currentTransform := 0 },
      formats := [preferredSurfaceFormat], present_modes := [] }
    { width := 100, height := 100 }
    { minImageCount := 3, imageFormat := Format.eB8G8R8A8Srgb,
      imageColorSpace := ColorSpaceKHR.eSrgbNonlinear,
      imageExtent := { width := 640, height := 480 }, imageArrayLayers := 1,
      sharingMode := SharingMode.eExclusive, preTransform := 0,
      compositeAlpha := CompositeAlphaFlagBitsKHR.eOpaque,
      presentMode := PresentModeKHR.eFifo, clipped := true }
    rfl

/-- C9: `buildSwapChain` always requests FIFO present mode, opaque
composite alpha, exclusive sharing, and `clipped = true`, and its result
does not depend on the queried supported-present-modes list, which it never
consults. -/
theorem buildSwapChain_fixed_modes (support : SwapChainSupportDetails)
    (window_size : Extent2D) :
    (∀ info, buildSwapChain support window_size = some info →
      info.presentMode = PresentModeKHR.eFifo ∧
      info.compositeAlpha = CompositeAlphaFlagBitsKHR.eOpaque ∧
      info.sharingMode = SharingMode.eExclusive ∧
      info.clipped = true) ∧
    (∀ present_modes,
      buildSwapChain { support with present_modes := present_modes }
          window_size =
        buildSwapChain support window_size) := by
  constructor
  · intro info h
    unfold buildSwapChain at h
    cases hf : chooseSwapSurfaceFormat support.formats with
    | none => rw [hf] at h; cases h
    | some sf =>
      rw [hf] at h
      cases h
      exact ⟨rfl, rfl, rfl, rfl⟩
  · intro present_modes
    unfold buildSwapChain
    rfl

theorem buildSwapChain_fixed_modes_witness :
    ({ minImageCount := 3, imageFormat := Format.eB8G8R8A8Srgb,
       imageColorSpace := ColorSpaceKHR.eSrgbNonlinear,
       imageExtent := { width := 640, height := 480 }, imageArrayLayers := 1,
       sharingMode := SharingMode.eExclusive, preTransform := 0,
       compositeAlpha := CompositeAlphaFlagBitsKHR.eOpaque,
       presentMode := PresentModeKHR.eFifo,
       clipped := true } : SwapchainCreateInfoKHR).presentMode =
        PresentModeKHR.eFifo :=
  ((buildSwapChain_fixed_modes
    { capabilities :=
        { minImageCount := 2, maxImageCount := 3,
          currentExtent := { width := 640, height := 480 },
          minImageExtent := { width := 1, height := 1 },
          maxImageExtent := { width := 2048, height := 2048 },
          currentTransform := 0 },
      formats := [preferredSurfaceFormat], present_modes := [] }
    { width := 100, height := 100 }).1 _ rfl).1

lemma findQueueFamiliesStep_graphics (present_support : Nat → Bool)
    (s : QueueFamilyIndices) (e : Nat × QueueFamilyProperties) :
    (findQueueFamiliesStep present_support s e).graphics_family =
      if graphicsFlagSet e.2 then some e.1 else s.graphics_family := by
  unfold findQueueFamiliesStep
  cases hg : graphicsFlagSet e.2 <;> cases hp : present_support e.1 <;>
    simp [hg, hp]

lemma findQueueFamiliesStep_present (present_support : Nat → Bool)
    (s : QueueFamilyIndices) (e : Nat × QueueFamilyProperties) :
    (findQueueFamiliesStep present_support s e).present_family =
      if present_support e.1 then some e.1 else s.present_family := by
  unfold findQueueFamiliesStep
  cases hg : graphicsFlagSet e.2 <;> cases hp : present_support e.1 <;>
    simp [hg, hp]

lemma findQueueFamilies_foldl_graphics (present_support : Nat → Bool)
    (l : List (Nat × QueueFamilyProperties)) (s : QueueFamilyIndices) :
    (l.foldl (findQueueFamiliesStep present_support) s).graphics_family =
      match spec_lastMatchIndex (fun _ qf => graphicsFlagSet qf) l with
      | some j => some j
      | none => s.graphics_family := by
  induction l generalizing s with
  | nil => rfl
  | cons e rest ih =>
    rw [List.foldl_cons, ih]
    cases hrest : spec_lastMatchIndex (fun _ qf => graphicsFlagSet qf) rest with
    | some j => simp [spec_lastMatchIndex, hrest]
    | none =>
      simp only [spec_lastMatchIndex, hrest, findQueueFamiliesStep_graphics]
      by_cases hg : graphicsFlagSet e.2 = true <;> simp [hg]

lemma findQueueFamilies_foldl_present (present_support : Nat → Bool)
    (l : List (Nat × QueueFamilyProperties)) (s : QueueFamilyIndices) :
    (l.foldl (findQueueFamiliesStep present_support) s).present_family =
      match spec_lastMatchIndex (fun i _ => present_support i) l with
      | some j => some j
      | none => s.present_family := by
  induction l generalizing s with
  | nil => rfl
  | cons e rest ih =>
    rw [List.foldl_cons, ih]
    cases hrest : spec_lastMatchIndex (fun i _ => present_support i) rest with
    | some j => simp [spec_lastMatchIndex, hrest]
    | none =>
      simp only [spec_lastMatchIndex, hrest, findQueueFamiliesStep_present]
      by_cases hp : present_support e.1 = true <;> simp [hp]

/-- C2: `findQueueFamilies` scans the enumerated queue families once and
records `graphics_family` as the last index whose queue flags include the
graphics bit and `present_family` as the last index reporting present
support for the surface; the present check is applied at every index,
independently of the graphics flags (its predicate ignores the
properties). -/
theorem findQueueFamilies_last_match
    (queue_families : List QueueFamilyProperties)
    (present_support : Nat → Bool) :
    (findQueueFamilies queue_families present_support).graphics_family =
      spec_lastMatchIndex (fun _ qf => graphicsFlagSet qf)
        queue_families.enum ∧
    (findQueueFamilies queue_families present_support).present_family =
      spec_lastMatchIndex (fun i _ => present_support i)
        queue_families.enum := by
  unfold findQueueFamilies
  constructor
  · rw [findQueueFamilies_foldl_graphics]
    cases spec_lastMatchIndex (fun _ qf => graphicsFlagSet qf)
      queue_families.enum <;> rfl
  · rw [findQueueFamilies_foldl_present]
    cases spec_lastMatchIndex (fun i _ => present_support i)
      queue_families.enum <;> rfl

lemma gatherLayers_ok_of_all_found (available_layers : List LayerProperties)
    (required_layers : List String)
    (h : ∀ r ∈ required_layers, ∃ l ∈ available_layers, l.layerName = r) :
    gatherLayers available_layers required_layers =
      Except.ok required_layers := by
  induction required_layers with
  | nil => rfl
  | cons r rest ih =>
    obtain ⟨l, hl, hname⟩ := h r (List.mem_cons_self r rest)
    have hfind : (available_layers.find? (fun l => r == l.layerName)).isSome := by
      rw [List.find?_isSome]
      exact ⟨l, hl, by simp [hname]⟩
    obtain ⟨x, hx⟩ := Option.isSome_iff_exists.mp hfind
    have hrest := ih (fun r hr => h r (List.mem_cons_of_mem _ hr))
    simp [gatherLayers, hx, hrest]

lemma gatherLayers_error_spec (available_layers : List LayerProperties)
    (required_layers : List String) (e : String)
    (h : gatherLayers available_layers required_layers = Except.error e) :
    ∃ r ∈ required_layers, (∀ l ∈ available_layers, l.layerName ≠ r) ∧
      e = "missing required layer " ++ r := by
  induction required_layers with
  | nil => simp [gatherLayers] at h
  | cons r rest ih =>
    rw [gatherLayers] at h
    cases hf : available_layers.find? (fun l => r == l.layerName) with
    | none =>
      rw [hf] at h
      refine ⟨r, List.mem_cons_self r rest, ?_, ?_⟩
      · intro l hl hlr
        have := List.find?_eq_none.mp hf l hl
        simp [hlr] at this
      · cases h
        rfl
    | some x =>
      rw [hf] at h
      cases hrest : gatherLayers available_layers rest with
      | error e2 =>
        rw [hrest] at h
        cases h
        obtain ⟨r2, hr2, hmiss, he⟩ := ih hrest
        exact ⟨r2, List.mem_cons_of_mem _ hr2, hmiss, he⟩
      | ok layers =>
        rw [hrest] at h
        cases h

lemma gatherLayers_error_of_missing (available_layers : List LayerProperties)
    (required_layers : List String) (r : String)
    (hr : r ∈ required_layers)
    (hmiss : ∀ l ∈ available_layers, l.layerName ≠ r) :
    ∃ e, gatherLayers available_layers required_layers = Except.error e := by
  induction required_layers with
  | nil => cases hr
  | cons a rest ih =>
    cases hf : available_layers.find? (fun l => a == l.layerName) with
    | none => exact ⟨_, by rw [gatherLayers, hf]⟩
    | some x =>
      have har : a ≠ r := by
        intro heq
        subst heq
        have hbeq := List.find?_some hf
        have hx : x ∈ available_layers := List.mem_of_find?_eq_some hf
        have : a = x.layerName := by simpa using hbeq
        exact hmiss x hx this.symm
      have hrrest : r ∈ rest := by
        cases List.mem_cons.mp hr with
        | inl heq => exact absurd heq.symm har
        | inr hmem => exact hmem
      obtain ⟨e, he⟩ := ih hrrest
      refine ⟨e, ?_⟩
      rw [gatherLayers, hf, he]

lemma gatherExtensions_ok_of_all_found
    (available_extensions : List ExtensionProperties)
    (required_extensions : List String)
    (h : ∀ r ∈ required_extensions,
      ∃ x ∈ available_extensions, x.extensionName = r) :
    gatherExtensions available_extensions required_extensions =
      Except.ok required_extensions := by
  induction required_extensions with
  | nil => rfl
  | cons r rest ih =>
    obtain ⟨x, hx, hname⟩ := h r (List.mem_cons_self r rest)
    have hfind :
        (available_extensions.find? (fun e => r == e.extensionName)).isSome := by
      rw [List.find?_isSome]
      exact ⟨x, hx, by simp [hname]⟩
    obtain ⟨y, hy⟩ := Option.isSome_iff_exists.mp hfind
    have hrest := ih (fun r hr => h r (List.mem_cons_of_mem _ hr))
    simp [gatherExtensions, hy, hrest]

lemma gatherExtensions_error_spec
    (available_extensions : List ExtensionProperties)
    (required_extensions : List String) (e : String)
    (h : gatherExtensions available_extensions required_extensions =
      Except.error e) :
    ∃ r ∈ required_extensions,
      (∀ x ∈ available_extensions, x.extensionName ≠ r) ∧
        e = "missing required extension " ++ r := by
  induction required_extensions with
  | nil => simp [gatherExtensions] at h
  | cons r rest ih =>
    rw [gatherExtensions] at h
    cases hf : available_extensions.find? (fun x => r == x.extensionName) with
    | none =>
      rw [hf] at h
      refine ⟨r, List.mem_cons_self r rest, ?_, ?_⟩
      · intro x hx hxr
        have := List.find?_eq_none.mp hf x hx
        simp [hxr] at this
      · cases h
        rfl
    | some x =>
      rw [hf] at h
      cases hrest : gatherExtensions available_extensions rest with
      | error e2 =>
        rw [hrest] at h
        cases h
        obtain ⟨r2, hr2, hmiss, he⟩ := ih hrest
        exact ⟨r2, List.mem_cons_of_mem _ hr2, hmiss, he⟩
      | ok extensions =>
        rw [hrest] at h
        cases h

lemma gatherExtensions_error_of_missing
    (available_extensions : List ExtensionProperties)
    (required_extensions : List String) (r : String)
    (hr : r ∈ required_extensions)
    (hmiss : ∀ x ∈ available_extensions, x.extensionName ≠ r) :
    ∃ e, gatherExtensions available_extensions required_extensions =
      Except.error e := by
  induction required_extensions with
  | nil => cases hr
  | cons a rest ih =>
    cases hf : available_extensions.find? (fun x => a == x.extensionName) with
    | none => exact ⟨_, by rw [gatherExtensions, hf]⟩
    | some x =>
      have har : a ≠ r := by
        intro heq
        subst heq
        have hbeq := List.find?_some hf
        have hx : x ∈ available_extensions := List.mem_of_find?_eq_some hf
        have : a = x.extensionName := by simpa using hbeq
        exact hmiss x hx this.symm
      have hrrest : r ∈ rest := by
        cases List.mem_cons.mp hr with
        | inl heq => exact absurd heq.symm har
        | inr hmem => exact hmem
      obtain ⟨e, he⟩ := ih hrrest
      refine ⟨e, ?_⟩
      rw [gatherExtensions, hf, he]

/-- C6: `gatherLayers` (and likewise `gatherExtensions`) fails with a
"missing required layer/extension <name>" error exactly when some required
name has no match in the available list, and when every required name is
found it returns exactly the required names, one per requirement, in the
required order. -/
theorem gather_missing_capability_iff
    (available_layers : List LayerProperties)
    (required_layers : List String)
    (available_extensions : List ExtensionProperties)
    (required_extensions : List String) :
    ((∀ r ∈ required_layers, ∃ l ∈ available_layers, l.layerName = r) →
      gatherLayers available_layers required_layers =
        Except.ok required_layers) ∧
    (∀ e, gatherLayers available_layers required_layers = Except.error e →
      ∃ r ∈ required_layers, (∀ l ∈ available_layers, l.layerName ≠ r) ∧
        e = "missing required layer " ++ r) ∧
    ((∃ r ∈ required_layers, ∀ l ∈ available_layers, l.layerName ≠ r) →
      ∃ e, gatherLayers available_layers required_layers = Except.error e) ∧
    ((∀ r ∈ required_extensions,
        ∃ x ∈ available_extensions, x.extensionName = r) →
      gatherExtensions available_extensions required_extensions =
        Except.ok required_extensions) ∧
    (∀ e, gatherExtensions available_extensions required_extensions =
        Except.error e →
      ∃ r ∈ required_extensions,
        (∀ x ∈ available_extensions, x.extensionName ≠ r) ∧
          e = "missing required extension " ++ r) ∧
    ((∃ r ∈ required_extensions,
        ∀ x ∈ available_extensions, x.extensionName ≠ r) →
      ∃ e, gatherExtensions available_extensions required_extensions =
        Except.error e) := by
  refine ⟨gatherLayers_ok_of_all_found _ _,
    fun e he => gatherLayers_error_spec _ _ e he,
    fun ⟨r, hr, hmiss⟩ => gatherLayers_error_of_missing _ _ r hr hmiss,
    gatherExtensions_ok_of_all_found _ _,
    fun e he => gatherExtensions_error_spec _ _ e he,
    fun ⟨r, hr, hmiss⟩ => gatherExtensions_error_of_missing _ _ r hr hmiss⟩

theorem gather_missing_capability_iff_witness :
    gatherLayers [{ layerName := "VK_LAYER_KHRONOS_validation" }]
        ["VK_LAYER_KHRONOS_validation"] =
      Except.ok ["VK_LAYER_KHRONOS_validation"] ∧
    gatherExtensions [{ extensionName := "VK_KHR_swapchain" }]
        ["VK_KHR_swapchain"] =
      Except.ok ["VK_KHR_swapchain"] :=
  ⟨(gather_missing_capability_iff
      [{ layerName := "VK_LAYER_KHRONOS_validation" }]
      ["VK_LAYER_KHRONOS_validation"]
      [{ extensionName := "VK_KHR_swapchain" }] ["VK_KHR_swapchain"]).1
      (by simp),
   (gather_missing_capability_iff
      [{ layerName := "VK_LAYER_KHRONOS_validation" }]
      ["VK_LAYER_KHRONOS_validation"]
      [{ extensionName := "VK_KHR_swapchain" }]
      ["VK_KHR_swapchain"]).2.2.2.1 (by simp)⟩

/-- C7: `buildLogicalDevice` raises the configuration error
"cannot find queues for both graphics and present" exactly when the given
`QueueFamilyIndices` is missing its graphics-family index or its
present-family index (or both); with both present, any failure is a
missing-capability error from layer/extension gathering, never the
configuration error. -/
theorem buildLogicalDevice_config_error_iff (qfi : QueueFamilyIndices)
    (available_device_layers : List LayerProperties)
    (available_device_extensions : List ExtensionProperties)
    (enable_validation_layers : Bool) :
    (∃ msg, buildLogicalDevice qfi available_device_layers
        available_device_extensions enable_validation_layers =
      Except.error (DeviceBuildError.configuration msg)) ↔
      (qfi.graphics_family = none ∨ qfi.present_family = none) := by
  cases qfi with
  | mk g p =>
    cases g with
    | none => simp [buildLogicalDevice]
    | some gv =>
      cases p with
      | none => simp [buildLogicalDevice]
      | some pv =>
        simp only [buildLogicalDevice]
        cases hl : gatherLayers available_device_layers
            (if enable_validation_layers then validation_layers else []) with
        | error e => simp
        | ok layers =>
          cases he : gatherExtensions available_device_extensions
              device_extensions with
          | error e => simp
          | ok extensions => simp

theorem buildLogicalDevice_config_error_iff_witness :
    ({ graphics_family := none, present_family := some 0 } :
        QueueFamilyIndices).graphics_family = none ∨
      ({ graphics_family := none, present_family := some 0 } :
        QueueFamilyIndices).present_family = none :=
  (buildLogicalDevice_config_error_iff
    { graphics_family := none, present_family := some 0 } [] [] false).mp
    ⟨"cannot find queues for both graphics and present", rfl⟩

/-- C10: when both families are present, `buildLogicalDevice` requests
exactly one queue-create entry, on the graphics family with queue count 1;
the constructor then retrieves the graphics queue at (graphics family, 0)
and the present queue at (present family, 0), and when the present family
differs from the graphics family no queue-create entry names it. -/
theorem buildLogicalDevice_single_graphics_queue (g p : Nat)
    (available_device_layers : List LayerProperties)
    (available_device_extensions : List ExtensionProperties)
    (enable_validation_layers : Bool) (info : DeviceCreateInfo)
    (h : buildLogicalDevice
        { graphics_family := some g, present_family := some p }
        available_device_layers available_device_extensions
        enable_validation_layers = Except.ok info) :
    info.queueCreateInfos = [{ queueFamilyIndex := g, queueCount := 1 }] ∧
    constructorQueueRetrievals
        { graphics_family := some g, present_family := some p } =
      some ((g, 0), (p, 0)) ∧
    (p ≠ g → ∀ qci ∈ info.queueCreateInfos, qci.queueFamilyIndex ≠ p) := by
  have hq : info.queueCreateInfos =
      [{ queueFamilyIndex := g, queueCount := 1 }] := by
    simp only [buildLogicalDevice] at h
    cases hl : gatherLayers available_device_layers
        (if enable_validation_layers then validation_layers else []) with
    | error e => rw [hl] at h; cases h
    | ok layers =>
      rw [hl] at h
      cases he : gatherExtensions available_device_extensions
          device_extensions with
      | error e => rw [he] at h; cases h
      | ok extensions =>
        rw [he] at h
        cases h
        rfl
  refine ⟨hq, rfl, ?_⟩
  intro hne qci hqci
  rw [hq] at hqci
  simp at hqci
  rw [hqci]
  simpa using fun heq => hne heq.symm

theorem buildLogicalDevice_single_graphics_queue_witness :
    constructorQueueRetrievals
        { graphics_family := some 0, present_family := some 1 } =
      some ((0, 0), (1, 0)) :=
  (buildLogicalDevice_single_graphics_queue 0 1 []
    [{ extensionName := "VK_KHR_swapchain" }] false
    { queueCreateInfos := [{ queueFamilyIndex := 0, queueCount := 1 }],
      enabledLayers := [], enabledExtensions := ["VK_KHR_swapchain"] }
    rfl).2.1

lemma drawFrameProgram_cons {k : Nat} {e : FrameEvent}
    {rest : List FrameEvent} (h : drawFrameProgram k = e :: rest) :
    ∃ m, k = m + 1 ∧ e = FrameEvent.waitFence ∧
      rest = [FrameEvent.resetFence, FrameEvent.acquireImage,
        FrameEvent.resetCommandBuffer, FrameEvent.recordCommands,
        FrameEvent.submit, FrameEvent.present] ++ drawFrameProgram m := by
  cases k with
  | zero => exact absurd h (by simp [drawFrameProgram])
  | succ m =>
    have h' : FrameEvent.waitFence ::
        ([FrameEvent.resetFence, FrameEvent.acquireImage,
          FrameEvent.resetCommandBuffer, FrameEvent.recordCommands,
          FrameEvent.submit, FrameEvent.present] ++ drawFrameProgram m) =
        e :: rest := h
    injection h' with h1 h2
    exact ⟨m, rfl, h1.symm, h2.symm⟩

lemma protocolInv_init (N : Nat) : protocolInv (initialSyncState N) :=
  Or.inl ⟨N, rfl, Or.inr ⟨rfl, rfl⟩⟩

lemma protocolInv_step {s t : SyncState} (h : protocolInv s)
    (hst : SysStep s t) : protocolInv t := by
  cases hst with
  | gpuRetire hpos =>
    rcases h with ⟨k, hp, hst'⟩ | ⟨k, hp, h0, hf⟩ | ⟨k, hp, h0, hf⟩ |
      ⟨k, hp, h0, hf⟩ | ⟨k, hp, h0, hf⟩ | ⟨k, hp, h0, hf⟩ | ⟨k, hp, hst'⟩
    · rcases hst' with ⟨h1, hf⟩ | ⟨h0, hf⟩
      · exact Or.inl ⟨k, hp, Or.inr ⟨by simp [h1], rfl⟩⟩
      · omega
    · omega
    · omega
    · omega
    · omega
    · omega
    · rcases hst' with ⟨h1, hf⟩ | ⟨h0, hf⟩
      · exact Or.inr (Or.inr (Or.inr (Or.inr (Or.inr (Or.inr
          ⟨k, hp, Or.inr ⟨by simp [h1], rfl⟩⟩)))))
      · omega
  | cpuWaitFence rest hp hf =>
    rcases h with ⟨k, hp', hst'⟩ | ⟨k, hp', h0, hf'⟩ | ⟨k, hp', h0, hf'⟩ |
      ⟨k, hp', h0, hf'⟩ | ⟨k, hp', h0, hf'⟩ | ⟨k, hp', h0, hf'⟩ |
      ⟨k, hp', hst'⟩
    · obtain ⟨m, hk, he, hrest⟩ := drawFrameProgram_cons (hp'.symm.trans hp)
      rcases hst' with ⟨h1, hf'⟩ | ⟨h0, hf'⟩
      · rw [hf] at hf'
        cases hf'
      · exact Or.inr (Or.inl ⟨m, hrest, h0, hf'⟩)
    · exact absurd (hp'.symm.trans hp) (by simp)
    · exact absurd (hp'.symm.trans hp) (by simp)
    · exact absurd (hp'.symm.trans hp) (by simp)
    · exact absurd (hp'.symm.trans hp) (by simp)
    · exact absurd (hp'.symm.trans hp) (by simp)
    · exact absurd (hp'.symm.trans hp) (by simp)
  | cpuResetFence rest hp =>
    rcases h with ⟨k, hp', hst'⟩ | ⟨k, hp', h0, hf'⟩ | ⟨k, hp', h0, hf'⟩ |
      ⟨k, hp', h0, hf'⟩ | ⟨k, hp', h0, hf'⟩ | ⟨k, hp', h0, hf'⟩ |
      ⟨k, hp', hst'⟩
    · obtain ⟨m, hk, he, hrest⟩ := drawFrameProgram_cons (hp'.symm.trans hp)
      simp at he
    · have h' : FrameEvent.resetFence ::
          ([FrameEvent.acquireImage, FrameEvent.resetCommandBuffer,
            FrameEvent.recordCommands, FrameEvent.submit,
            FrameEvent.present] ++ drawFrameProgram k) =
          FrameEvent.resetFence :: rest := hp'.symm.trans hp
      injection h' with _ h2
      exact Or.inr (Or.inr (Or.inl ⟨k, h2.symm, h0, rfl⟩))
    · exact absurd (hp'.symm.trans hp) (by simp)
    · exact absurd (hp'.symm.trans hp) (by simp)
    · exact absurd (hp'.symm.trans hp) (by simp)
    · exact absurd (hp'.symm.trans hp) (by simp)
    · exact absurd (hp'.symm.trans hp) (by simp)
  | cpuSubmit rest hp =>
    rcases h with ⟨k, hp', hst'⟩ | ⟨k, hp', h0, hf'⟩ | ⟨k, hp', h0, hf'⟩ |
      ⟨k, hp', h0, hf'⟩ | ⟨k, hp', h0, hf'⟩ | ⟨k, hp', h0, hf'⟩ |
      ⟨k, hp', hst'⟩
    · obtain ⟨m, hk, he, hrest⟩ := drawFrameProgram_cons (hp'.symm.trans hp)
      simp at he
    · exact absurd (hp'.symm.trans hp) (by simp)
    · exact absurd (hp'.symm.trans hp) (by simp)
    · exact absurd (hp'.symm.trans hp) (by simp)
    · exact absurd (hp'.symm.trans hp) (by simp)
    · have h' : FrameEvent.submit ::
          ([FrameEvent.present] ++ drawFrameProgram k) =
          FrameEvent.submit :: rest := hp'.symm.trans hp
      injection h' with _ h2
      exact Or.inr (Or.inr (Or.inr (Or.inr (Or.inr (Or.inr
        ⟨k, h2.symm, Or.inl ⟨by simp [h0], hf'⟩⟩)))))
    · exact absurd (hp'.symm.trans hp) (by simp)
  | cpuAcquire rest hp =>
    rcases h with ⟨k, hp', hst'⟩ | ⟨k, hp', h0, hf'⟩ | ⟨k, hp', h0, hf'⟩ |
      ⟨k, hp', h0, hf'⟩ | ⟨k, hp', h0, hf'⟩ | ⟨k, hp', h0, hf'⟩ |
      ⟨k, hp', hst'⟩
    · obtain ⟨m, hk, he, hrest⟩ := drawFrameProgram_cons (hp'.symm.trans hp)
      simp at he
    · exact absurd (hp'.symm.trans hp) (by simp)
    · have h' : FrameEvent.acquireImage ::
          ([FrameEvent.resetCommandBuffer, FrameEvent.recordCommands,
            FrameEvent.submit, FrameEvent.present] ++
            drawFrameProgram k) =
          FrameEvent.acquireImage :: rest := hp'.symm.trans hp
      injection h' with _ h2
      exact Or.inr (Or.inr (Or.inr (Or.inl ⟨k, h2.symm, h0, hf'⟩)))
    · exact absurd (hp'.symm.trans hp) (by simp)
    · exact absurd (hp'.symm.trans hp) (by simp)
    · exact absurd (hp'.symm.trans hp) (by simp)
    · exact absurd (hp'.symm.trans hp) (by simp)
  | cpuResetCommandBuffer rest hp =>
    rcases h with ⟨k, hp', hst'⟩ | ⟨k, hp', h0, hf'⟩ | ⟨k, hp', h0, hf'⟩ |
      ⟨k, hp', h0, hf'⟩ | ⟨k, hp', h0, hf'⟩ | ⟨k, hp', h0, hf'⟩ |
      ⟨k, hp', hst'⟩
    · obtain ⟨m, hk, he, hrest⟩ := drawFrameProgram_cons (hp'.symm.trans hp)
      simp at he
    · exact absurd (hp'.symm.trans hp) (by simp)
    · exact absurd (hp'.symm.trans hp) (by simp)
    · have h' : FrameEvent.resetCommandBuffer ::
          ([FrameEvent.recordCommands, FrameEvent.submit,
            FrameEvent.present] ++ drawFrameProgram k) =
          FrameEvent.resetCommandBuffer :: rest := hp'.symm.trans hp
      injection h' with _ h2
      exact Or.inr (Or.inr (Or.inr (Or.inr (Or.inl ⟨k, h2.symm, h0, hf'⟩))))
    · exact absurd (hp'.symm.trans hp) (by simp)
    · exact absurd (hp'.symm.trans hp) (by simp)
    · exact absurd (hp'.symm.trans hp) (by simp)
  | cpuRecord rest hp =>
    rcases h with ⟨k, hp', hst'⟩ | ⟨k, hp', h0, hf'⟩ | ⟨k, hp', h0, hf'⟩ |
      ⟨k, hp', h0, hf'⟩ | ⟨k, hp', h0, hf'⟩ | ⟨k, hp', h0, hf'⟩ |
      ⟨k, hp', hst'⟩
    · obtain ⟨m, hk, he, hrest⟩ := drawFrameProgram_cons (hp'.symm.trans hp)
      simp at he
    · exact absurd (hp'.symm.trans hp) (by simp)
    · exact absurd (hp'.symm.trans hp) (by simp)
    · exact absurd (hp'.symm.trans hp) (by simp)
    · have h' : FrameEvent.recordCommands ::
          ([FrameEvent.submit, FrameEvent.present] ++ drawFrameProgram k) =
          FrameEvent.recordCommands :: rest := hp'.symm.trans hp
      injection h' with _ h2
      exact Or.inr (Or.inr (Or.inr (Or.inr (Or.inr
        (Or.inl ⟨k, h2.symm, h0, hf'⟩)))))
    · exact absurd (hp'.symm.trans hp) (by simp)
    · exact absurd (hp'.symm.trans hp) (by simp)
  | cpuPresent rest hp =>
    rcases h with ⟨k, hp', hst'⟩ | ⟨k, hp', h0, hf'⟩ | ⟨k, hp', h0, hf'⟩ |
      ⟨k, hp', h0, hf'⟩ | ⟨k, hp', h0, hf'⟩ | ⟨k, hp', h0, hf'⟩ |
      ⟨k, hp', hst'⟩
    · obtain ⟨m, hk, he, hrest⟩ := drawFrameProgram_cons (hp'.symm.trans hp)
      simp at he
    · exact absurd (hp'.symm.trans hp) (by simp)
    · exact absurd (hp'.symm.trans hp) (by simp)
    · exact absurd (hp'.symm.trans hp) (by simp)
    · exact absurd (hp'.symm.trans hp) (by simp)
    · exact absurd (hp'.symm.trans hp) (by simp)
    · have h' : FrameEvent.present :: drawFrameProgram k =
          FrameEvent.present :: rest := hp'.symm.trans hp
      injection h' with _ h2
      exact Or.inl ⟨k, h2.symm, hst'⟩

/-- C1: running `N` sequential `drawFrame` invocations from the
constructor's initial state (in-flight fence created signaled), every
reachable state of the CPU/GPU protocol has at most one submitted frame of
GPU work outstanding, and whenever the CPU is about to reset or re-record
the command buffer, no GPU work is outstanding and the fence has already
been observed signaled and reset in the current invocation. -/
theorem drawFrame_at_most_one_in_flight (N : Nat) (s : SyncState)
    (h : Reachable N s) :
    s.outstanding ≤ 1 ∧
    (∀ rest, s.program = FrameEvent.resetCommandBuffer :: rest →
      s.outstanding = 0 ∧ s.fenceSignaled = false) ∧
    (∀ rest, s.program = FrameEvent.recordCommands :: rest →
      s.outstanding = 0 ∧ s.fenceSignaled = false) := by
  have hinv : protocolInv s := by
    induction h with
    | init => exact protocolInv_init N
    | step hr hst ih => exact protocolInv_step ih hst
  refine ⟨?_, ?_, ?_⟩
  · rcases hinv with ⟨k, hp, ⟨h1, _⟩ | ⟨h0, _⟩⟩ | ⟨k, hp, h0, hf⟩ |
      ⟨k, hp, h0, hf⟩ | ⟨k, hp, h0, hf⟩ | ⟨k, hp, h0, hf⟩ |
      ⟨k, hp, h0, hf⟩ | ⟨k, hp, ⟨h1, _⟩ | ⟨h0, _⟩⟩ <;> omega
  · intro rest hp
    rcases hinv with ⟨k, hp', hst'⟩ | ⟨k, hp', h0, hf'⟩ | ⟨k, hp', h0, hf'⟩ |
      ⟨k, hp', h0, hf'⟩ | ⟨k, hp', h0, hf'⟩ | ⟨k, hp', h0, hf'⟩ |
      ⟨k, hp', hst'⟩
    · obtain ⟨m, hk, he, hrest⟩ := drawFrameProgram_cons (hp'.symm.trans hp)
      simp at he
    · exact absurd (hp'.symm.trans hp) (by simp)
    · exact absurd (hp'.symm.trans hp) (by simp)
    · exact ⟨h0, hf'⟩
    · exact absurd (hp'.symm.trans hp) (by simp)
    · exact absurd (hp'.symm.trans hp) (by simp)
    · exact absurd (hp'.symm.trans hp) (by simp)
  · intro rest hp
    rcases hinv with ⟨k, hp', hst'⟩ | ⟨k, hp', h0, hf'⟩ | ⟨k, hp', h0, hf'⟩ |
      ⟨k, hp', h0, hf'⟩ | ⟨k, hp', h0, hf'⟩ | ⟨k, hp', h0, hf'⟩ |
      ⟨k, hp', hst'⟩
    · obtain ⟨m, hk, he, hrest⟩ := drawFrameProgram_cons (hp'.symm.trans hp)
      simp at he
    · exact absurd (hp'.symm.trans hp) (by simp)
    · exact absurd (hp'.symm.trans hp) (by simp)
    · exact absurd (hp'.symm.trans hp) (by simp)
    · exact ⟨h0, hf'⟩
    · exact absurd (hp'.symm.trans hp) (by simp)
    · exact absurd (hp'.symm.trans hp) (by simp)

theorem drawFrame_at_most_one_in_flight_witness :
    (initialSyncState 3).outstanding ≤ 1 ∧
    (∀ rest, (initialSyncState 3).program =
        FrameEvent.resetCommandBuffer :: rest →
      (initialSyncState 3).outstanding = 0 ∧
        (initialSyncState 3).fenceSignaled = false) ∧
    (∀ rest, (initialSyncState 3).program =
        FrameEvent.recordCommands :: rest →
      (initialSyncState 3).outstanding = 0 ∧
        (initialSyncState 3).fenceSignaled = false) :=
  drawFrame_at_most_one_in_flight 3 (initialSyncState 3) Reachable.init

end visualization
